import Mathlib

/-!
Verification of the cell-quality module of pymapdl-reader
(`ansys/mapdl/reader/cell_quality.py`).

The Python wrapper `quality(grid)` is embedded shallowly below.  The
native kernels `cell_quality` / `cell_quality_float` (module
`ansys.mapdl.reader._cellqual`) and the helper `vtk_cell_info` are part
of the repository but their sources are not available here; they are
modelled from the specification (minimum scaled Jacobian per cell,
dispatched on the cell topology code).  Points are modelled over the
real numbers; the float32/float64 distinction is tracked by an explicit
precision tag (the float32 to float64 upcast is exact on values, so the
real-valued model identifies the numeric content of the two kernels).
-/

/-- A 3-component coordinate vector (one mesh point, real-valued model
of the single/double precision coordinates). -/
structure Vec3 where
  x : ℝ
  y : ℝ
  z : ℝ

namespace Vec3

/-- Componentwise subtraction: an edge vector between two points. -/
def sub (a b : Vec3) : Vec3 := ⟨a.x - b.x, a.y - b.y, a.z - b.z⟩

/-- Dot product. -/
def dot (a b : Vec3) : ℝ := a.x * b.x + a.y * b.y + a.z * b.z

/-- Cross product. -/
def cross (a b : Vec3) : Vec3 :=
  ⟨a.y * b.z - a.z * b.y, a.z * b.x - a.x * b.z, a.x * b.y - a.y * b.x⟩

/-- Squared Euclidean magnitude. -/
def normSq (a : Vec3) : ℝ := a.x * a.x + a.y * a.y + a.z * a.z

/-- Euclidean magnitude of an edge vector. -/
noncomputable def mag (a : Vec3) : ℝ := Real.sqrt a.normSq

end Vec3

/-- Determinant of the 3x3 Jacobian whose columns are the three edge
vectors emanating from a sample corner (the scalar triple product). -/
def det3 (a b c : Vec3) : ℝ := (Vec3.cross a b).dot c

/-- Scaled Jacobian at a 3D sample corner: the Jacobian determinant
divided by the product of the magnitudes of the three edge vectors.
Division by zero yields 0 in this model, which realises the specified
clamp-to-0 fallback for degenerate (zero-magnitude-edge) geometry. -/
noncomputable def scaledJac (a b c : Vec3) : ℝ := det3 a b c / (a.mag * b.mag * c.mag)

/-- Scaled Jacobian at a 2D sample corner (triangles and quads embedded
in 3D): the magnitude of the cross product of the two edge vectors
divided by the product of their magnitudes; division by zero yields 0
(the same degenerate-geometry fallback). -/
noncomputable def scaledJac2 (a b : Vec3) : ℝ := (Vec3.cross a b).mag / (a.mag * b.mag)

/-- Minimum of a nonempty collection of sample values, written as a
fold so that every per-cell quality is the minimum over its samples. -/
def minList (q : ℝ) (l : List ℝ) : ℝ := l.foldl min q

/-! ### Per-topology quality evaluators

Modelled from the spec: for each supported topology the Jacobian is
sampled at every corner from the edge vectors emanating there, each
sample is normalised by the product of the edge magnitudes, and the
cell quality is the minimum over the samples.  The per-corner edge
orderings follow the standard iso-parametric node numbering of each
VTK cell family, oriented so that a right-angled, equal-edge,
positively oriented corner yields exactly 1. -/

/-- Triangle (3 nodes): 2D Jacobian sampled at each of the 3 corners. -/
noncomputable def triQual (p0 p1 p2 : Vec3) : ℝ :=
  minList (scaledJac2 (p1.sub p0) (p2.sub p0))
    [scaledJac2 (p2.sub p1) (p0.sub p1),
     scaledJac2 (p0.sub p2) (p1.sub p2)]

/-- Quad (4 nodes): 2D Jacobian sampled at each of the 4 corners. -/
noncomputable def quadQual (p0 p1 p2 p3 : Vec3) : ℝ :=
  minList (scaledJac2 (p1.sub p0) (p3.sub p0))
    [scaledJac2 (p2.sub p1) (p0.sub p1),
     scaledJac2 (p3.sub p2) (p1.sub p2),
     scaledJac2 (p0.sub p3) (p2.sub p3)]

/-- Tetrahedron (4 nodes): 3D Jacobian sampled at each of the 4 corners. -/
noncomputable def tetQual (p0 p1 p2 p3 : Vec3) : ℝ :=
  minList (scaledJac (p1.sub p0) (p2.sub p0) (p3.sub p0))
    [scaledJac (p2.sub p1) (p0.sub p1) (p3.sub p1),
     scaledJac (p0.sub p2) (p1.sub p2) (p3.sub p2),
     scaledJac (p1.sub p3) (p0.sub p3) (p2.sub p3)]

/-- Pyramid (5 nodes, apex p4): 3D Jacobian sampled at the 4 base
corners and at the apex (same formula per corner, per the spec). -/
noncomputable def pyrQual (p0 p1 p2 p3 p4 : Vec3) : ℝ :=
  minList (scaledJac (p1.sub p0) (p3.sub p0) (p4.sub p0))
    [scaledJac (p2.sub p1) (p0.sub p1) (p4.sub p1),
     scaledJac (p3.sub p2) (p1.sub p2) (p4.sub p2),
     scaledJac (p0.sub p3) (p2.sub p3) (p4.sub p3),
     scaledJac (p0.sub p4) (p1.sub p4) (p2.sub p4)]

/-- Wedge (6 nodes, triangles 0-1-2 and 3-4-5): 3D Jacobian sampled at
each of the 6 corners. -/
noncomputable def wedgeQual (p0 p1 p2 p3 p4 p5 : Vec3) : ℝ :=
  minList (scaledJac (p1.sub p0) (p2.sub p0) (p3.sub p0))
    [scaledJac (p2.sub p1) (p0.sub p1) (p4.sub p1),
     scaledJac (p0.sub p2) (p1.sub p2) (p5.sub p2),
     scaledJac (p5.sub p3) (p4.sub p3) (p0.sub p3),
     scaledJac (p3.sub p4) (p5.sub p4) (p1.sub p4),
     scaledJac (p4.sub p5) (p3.sub p5) (p2.sub p5)]

/-- Hexahedron (8 nodes, VTK ordering: bottom face 0-1-2-3, top face
4-5-6-7): 3D Jacobian sampled at each of the 8 corners. -/
noncomputable def hexQual (p0 p1 p2 p3 p4 p5 p6 p7 : Vec3) : ℝ :=
  minList (scaledJac (p1.sub p0) (p3.sub p0) (p4.sub p0))
    [scaledJac (p2.sub p1) (p0.sub p1) (p5.sub p1),
     scaledJac (p3.sub p2) (p1.sub p2) (p6.sub p2),
     scaledJac (p0.sub p3) (p2.sub p3) (p7.sub p3),
     scaledJac (p7.sub p4) (p5.sub p4) (p0.sub p4),
     scaledJac (p4.sub p5) (p6.sub p5) (p1.sub p5),
     scaledJac (p5.sub p6) (p7.sub p6) (p2.sub p6),
     scaledJac (p6.sub p7) (p4.sub p7) (p3.sub p7)]

/-! ### The kernel: dispatch by topology code over the cell arrays -/

/-- Node count of each supported nonzero topology code (standard VTK
codes: 3 line, 5 triangle, 9 quad, 10 tetrahedron, 12 hexahedron,
13 wedge, 14 pyramid); `none` marks an unsupported code. -/
def nodeCountOf (c : ℕ) : Option ℕ :=
  if c = 3 then some 2
  else if c = 5 then some 3
  else if c = 9 then some 4
  else if c = 10 then some 4
  else if c = 12 then some 8
  else if c = 13 then some 6
  else if c = 14 then some 5
  else none

/-- Kernel-level failures: an out-of-bounds buffer access (which must
fail loudly per the spec) or an unsupported topology code (identified
in the error). -/
inductive KernelErr where
  | indexOOB : KernelErr
  | unsupportedCellType : ℕ → KernelErr
deriving DecidableEq

/-- Fetch the `n` point coordinates of a cell whose connectivity entries
start at position `st` of the flat connectivity buffer; `none` on any
out-of-bounds access. -/
def getPts (points : List Vec3) (cells : List ℕ) (st : ℕ) : ℕ → Option (List Vec3)
  | 0 => some []
  | n + 1 =>
    match cells.get? st with
    | none => none
    | some id =>
      match points.get? id with
      | none => none
      | some p =>
        match getPts points cells (st + 1) n with
        | none => none
        | some rest => some (p :: rest)

/-- Default point used only to destructure an already-length-checked
node list; it is never reached on well-counted input. -/
def pt0 : Vec3 := ⟨0, 0, 0⟩

/-- Quality of one cell from its fetched node coordinates, dispatched
on the topology code.  A line (code 3) short-circuits to 1, the
spec-sanctioned choice for 1D elements. -/
noncomputable def topoQual (c : ℕ) (ps : List Vec3) : ℝ :=
  if c = 3 then 1
  else if c = 5 then triQual (ps.getD 0 pt0) (ps.getD 1 pt0) (ps.getD 2 pt0)
  else if c = 9 then quadQual (ps.getD 0 pt0) (ps.getD 1 pt0) (ps.getD 2 pt0) (ps.getD 3 pt0)
  else if c = 10 then tetQual (ps.getD 0 pt0) (ps.getD 1 pt0) (ps.getD 2 pt0) (ps.getD 3 pt0)
  else if c = 12 then
    hexQual (ps.getD 0 pt0) (ps.getD 1 pt0) (ps.getD 2 pt0) (ps.getD 3 pt0)
      (ps.getD 4 pt0) (ps.getD 5 pt0) (ps.getD 6 pt0) (ps.getD 7 pt0)
  else if c = 13 then
    wedgeQual (ps.getD 0 pt0) (ps.getD 1 pt0) (ps.getD 2 pt0) (ps.getD 3 pt0)
      (ps.getD 4 pt0) (ps.getD 5 pt0)
  else if c = 14 then
    pyrQual (ps.getD 0 pt0) (ps.getD 1 pt0) (ps.getD 2 pt0) (ps.getD 3 pt0) (ps.getD 4 pt0)
  else 1

/-- Quality of the cell with index `i` and topology code `c`.  The
null code 0 returns exactly 1 immediately (the kernel's early return),
an unsupported code fails identifying the code, and an out-of-bounds
access fails loudly. -/
noncomputable def cellQual (cells offset : List ℕ) (points : List Vec3) (i c : ℕ) :
    Except KernelErr ℝ :=
  if c = 0 then Except.ok 1
  else
    match nodeCountOf c with
    | none => Except.error (KernelErr.unsupportedCellType c)
    | some nc =>
      match offset.get? i with
      | none => Except.error KernelErr.indexOOB
      | some st =>
        match getPts points cells st nc with
        | none => Except.error KernelErr.indexOOB
        | some ps => Except.ok (topoQual c ps)

/-- Single pass over the cell-type buffer: one quality value per cell,
failing the whole pass atomically on the first bad cell. -/
noncomputable def cqGo (cells offset : List ℕ) (points : List Vec3) :
    ℕ → List ℕ → Except KernelErr (List ℝ)
  | _, [] => Except.ok []
  | i, c :: rest =>
    match cellQual cells offset points i c with
    | Except.error e => Except.error e
    | Except.ok q =>
      match cqGo cells offset points (i + 1) rest with
      | Except.error e => Except.error e
      | Except.ok qs => Except.ok (q :: qs)

/-- Modelled from the spec: the double-precision native kernel
`ansys.mapdl.reader._cellqual.cell_quality` (its Cython source is not
part of src/).  It maps (connectivity, offsets, cell types, points) to
one minimum scaled Jacobian per cell. -/
noncomputable def cell_quality (cells offset celltypes : List ℕ) (points : List Vec3) :
    Except KernelErr (List ℝ) :=
  cqGo cells offset points 0 celltypes

/-- Modelled from the spec: the single-precision native kernel
`ansys.mapdl.reader._cellqual.cell_quality_float`.  Over the
real-valued coordinate model it computes the same values as the
double-precision kernel; float32 rounding is not modelled, and the
precision actually selected is tracked separately by `Precision`. -/
noncomputable def cell_quality_float (cells offset celltypes : List ℕ) (points : List Vec3) :
    Except KernelErr (List ℝ) :=
  cqGo cells offset points 0 celltypes

/-! ### The Python wrapper `quality` -/

/-- Dtype of the point array: double precision, single precision, or
any other dtype (integers, half floats, ...). -/
inductive Dtype where
  | float64 : Dtype
  | float32 : Dtype
  | other : Dtype
deriving DecidableEq

/-- The precision a single call runs its whole per-cell computation in. -/
inductive Precision where
  | single : Precision
  | double : Precision
deriving DecidableEq

/-- The caller-visible unstructured-grid buffers: point coordinates
(with their dtype), flat connectivity, per-cell offsets into it, and
per-cell topology codes.  `cells` and `offset` are what the helper
`vtk_cell_info` extracts from the grid (modelled from the spec:
`offset` holds each cell's start position in the flat `cells` buffer). -/
structure UGrid where
  points : List Vec3
  dtype : Dtype
  cells : List ℕ
  offset : List ℕ
  celltypes : List ℕ

/-- The argument accepted by `quality`, after the behaviour of the
external `pyvista` layer is resolved: a structured grid carries the
unstructured grid its `cast_to_unstructured_grid()` produces (blanked
structured cells flatten to the VTK empty cell, topology code 0), an
unstructured grid is used as is, `wrapped` is a foreign object that
`pv.wrap` turns into an unstructured grid, and `nonGrid` is any object
whose wrap does not yield an unstructured grid. -/
inductive GridInput where
  | structured : UGrid → GridInput
  | unstructured : UGrid → GridInput
  | wrapped : UGrid → GridInput
  | nonGrid : GridInput

/-- Lines 38-45 of the wrapper: coercion of the input to an
unstructured grid, tracking structured provenance in `flip`; `none` is
the `TypeError` branch for inputs that cannot be coerced. -/
def coerce : GridInput → Option (UGrid × Bool)
  | GridInput.structured u => some (u, true)
  | GridInput.unstructured u => some (u, false)
  | GridInput.wrapped u => some (u, false)
  | GridInput.nonGrid => none

/-- `points.astype(np.float64)` on the coordinate values: the upcast to
double is exact on every representable value, so it is the identity in
the real-valued model (the dtype tag becomes float64 separately). -/
def astype64 (p : Vec3) : Vec3 := p

/-- Failures of the whole call: the wrapper's `TypeError`, or an error
propagated from the native kernel. -/
inductive Err where
  | typeError : Err
  | kernel : KernelErr → Err
deriving DecidableEq

/-- A kernel as passed around by the dispatch: the signature of
`cell_quality` and `cell_quality_float`. -/
def KernelFn : Type :=
  List ℕ → List ℕ → List ℕ → List Vec3 → Except KernelErr (List ℝ)

/-- Lines 50-56 of the wrapper: precision dispatch.  Double-precision
points go to the double kernel, single-precision points to the single
kernel, and any other dtype is upcast to double (never truncated) and
sent to the double kernel.  The returned tag is the one precision used
consistently for the whole call. -/
def dispatchWith (kd ks : KernelFn) (u : UGrid) :
    Precision × Except KernelErr (List ℝ) :=
  if u.dtype = Dtype.float64 then
    (Precision.double, kd u.cells u.offset u.celltypes u.points)
  else if u.dtype = Dtype.float32 then
    (Precision.single, ks u.cells u.offset u.celltypes u.points)
  else
    (Precision.double, kd u.cells u.offset u.celltypes (u.points.map astype64))

/-- Line 58 of the wrapper, `qual[grid.celltypes == 0] = 1`: every
position whose topology code is the null code 0 is overwritten with
exactly 1. -/
def setNullQual (celltypes : List ℕ) (qual : List ℝ) : List ℝ :=
  List.zipWith (fun c q => if c = 0 then (1 : ℝ) else q) celltypes qual

/-- The wrapper `quality`, parameterised by the two kernels exactly as
the lazy import leaves them free: coercion (with the `TypeError`
branch), precision dispatch, the null-cell override, and the
structured-grid sign flip, in the order of the source.  The returned
pair also records the precision the call selected. -/
def qualityRunWith (kd ks : KernelFn) (g : GridInput) :
    Except Err (Precision × List ℝ) :=
  match coerce g with
  | none => Except.error Err.typeError
  | some (u, flip) =>
    match dispatchWith kd ks u with
    | (_, Except.error e) => Except.error (Err.kernel e)
    | (p, Except.ok qual) =>
      let q2 := setNullQual u.celltypes qual
      Except.ok (p, if flip then q2.map (fun v => -v) else q2)

/-- The wrapper run with the real kernels. -/
noncomputable def qualityRun (g : GridInput) : Except Err (Precision × List ℝ) :=
  qualityRunWith cell_quality cell_quality_float g

/-- The function `quality` of `cell_quality.py`: per-cell minimum
scaled Jacobian scores of the input grid, or the call's error. -/
noncomputable def quality (g : GridInput) : Except Err (List ℝ) :=
  Except.map Prod.snd (qualityRun g)

/-- Statement-by-statement state-passing form of the wrapper, with the
caller's grid object threaded through every step: line 39 and line 55
rebind local names to freshly built objects and line 58 writes into the
kernel-allocated output array, so no step writes through to the
caller's buffers, which are returned unchanged alongside the result. -/
noncomputable def qualityFrame (g : GridInput) : Except Err (List ℝ) × GridInput :=
  match coerce g with
  | none => (Except.error Err.typeError, g)
  | some (u, flip) =>
    match dispatchWith cell_quality cell_quality_float u with
    | (_, Except.error e) => (Except.error (Err.kernel e), g)
    | (_, Except.ok qual) =>
      let q2 := setNullQual u.celltypes qual
      ((Except.ok (if flip then q2.map (fun v => -v) else q2)), g)

/-- One-cell grid whose single cell has the null topology code 0; its
coordinate buffers are empty (garbage-free stand-in: the null path
never reads them). -/
def nullCellGrid : UGrid :=
  { points := [], dtype := Dtype.float64, cells := [], offset := [0], celltypes := [0] }

/-- Empty grid whose points carry a dtype that is neither single nor
double precision. -/
def otherDtypeGrid : UGrid :=
  { points := [], dtype := Dtype.other, cells := [], offset := [], celltypes := [] }

/-- A topology code the kernel does not support (and which is not the
null code). -/
def UnsupportedCode (c : ℕ) : Prop := c ≠ 0 ∧ nodeCountOf c = none

instance (c : ℕ) : Decidable (UnsupportedCode c) := by
  unfold UnsupportedCode
  infer_instance

/-- Buffer-consistency conditions (the caller's responsibility per the
spec): one offset per cell, room for the largest supported cell at
every start position, and every connectivity entry a valid point
index.  They rule out the kernel's out-of-bounds failure. -/
def WellFormed (u : UGrid) : Prop :=
  u.celltypes.length ≤ u.offset.length ∧
  (∀ st ∈ u.offset, st + 8 ≤ u.cells.length) ∧
  (∀ n ∈ u.cells, n < u.points.length)

instance (u : UGrid) : Decidable (WellFormed u) := by
  unfold WellFormed
  infer_instance

/-- One-cell grid whose single cell carries the unsupported topology
code 42, with consistent buffers. -/
def badCodeGrid : UGrid :=
  { points := [⟨0, 0, 0⟩], dtype := Dtype.float64,
    cells := [0, 0, 0, 0, 0, 0, 0, 0], offset := [0], celltypes := [42] }

/-! ### The docstring example grid (C3)

The wrapper's docstring builds `pv.StructuredGrid(x, y, z)` from
`np.meshgrid` of `np.arange(-10, 10, 5)` along each axis and documents
that `quality(grid)` returns twenty-seven values, all exactly 1.
`np.meshgrid` uses xy indexing, which swaps the first two structured
axes, so the flattened point with structured index n = a + 4b + 16c
has coordinates (5b - 10, 5a - 10, 5c - 10): the structured frame is
left-handed, every flattened hexahedron is negatively oriented, and
the kernel value is negated by the structured-grid flip to give the
documented +1 output. -/

/-- Coordinates of flattened point n of the docstring grid. -/
noncomputable def upt (n : ℕ) : Vec3 :=
  ⟨5 * ((n / 4 % 4 : ℕ) : ℝ) - 10, 5 * ((n % 4 : ℕ) : ℝ) - 10, 5 * ((n / 16 : ℕ) : ℝ) - 10⟩

/-- Node t (0 ≤ t < 8) of flattened hexahedral cell m (0 ≤ m < 27), in
the standard VTK hexahedron ordering of a structured cell. -/
def ucellNode (m t : ℕ) : ℕ :=
  if t = 0 then m % 3 + 4 * (m / 3 % 3) + 16 * (m / 9)
  else if t = 1 then m % 3 + 4 * (m / 3 % 3) + 16 * (m / 9) + 1
  else if t = 2 then m % 3 + 4 * (m / 3 % 3) + 16 * (m / 9) + 5
  else if t = 3 then m % 3 + 4 * (m / 3 % 3) + 16 * (m / 9) + 4
  else if t = 4 then m % 3 + 4 * (m / 3 % 3) + 16 * (m / 9) + 16
  else if t = 5 then m % 3 + 4 * (m / 3 % 3) + 16 * (m / 9) + 17
  else if t = 6 then m % 3 + 4 * (m / 3 % 3) + 16 * (m / 9) + 21
  else m % 3 + 4 * (m / 3 % 3) + 16 * (m / 9) + 20

/-- Entry n of the flat connectivity buffer of the docstring grid. -/
def uCellsFn (n : ℕ) : ℕ := ucellNode (n / 8) (n % 8)

/-- The docstring example grid after flattening: 64 points, 27
hexahedral cells of edge length 5. -/
noncomputable def uniformGrid : UGrid :=
  { points := (List.range 64).map upt
    dtype := Dtype.float64
    cells := (List.range 216).map uCellsFn
    offset := (List.range 27).map (fun m => 8 * m)
    celltypes := List.replicate 27 12 }

/-! ### Bounds on a single sample value -/

theorem normSq_nonneg (a : Vec3) : 0 ≤ a.normSq := by
  have hx := mul_self_nonneg a.x
  have hy := mul_self_nonneg a.y
  have hz := mul_self_nonneg a.z
  unfold Vec3.normSq
  linarith

theorem mag_nonneg (a : Vec3) : 0 ≤ a.mag := Real.sqrt_nonneg _

/-- Lagrange identity specialised to 3-vectors. -/
theorem lagrange (a b : Vec3) :
    (Vec3.cross a b).normSq = a.normSq * b.normSq - (a.dot b) * (a.dot b) := by
  unfold Vec3.cross Vec3.normSq Vec3.dot
  ring

theorem dot_sq_le (a b : Vec3) : (a.dot b) * (a.dot b) ≤ a.normSq * b.normSq := by
  have h := normSq_nonneg (Vec3.cross a b)
  rw [lagrange] at h
  linarith

theorem mag_mul_mag (a b : Vec3) :
    a.mag * b.mag = Real.sqrt (a.normSq * b.normSq) := by
  rw [Real.sqrt_mul (normSq_nonneg a)]
  rfl

/-- Cauchy-Schwarz for the model vectors. -/
theorem abs_dot_le (a b : Vec3) : |a.dot b| ≤ a.mag * b.mag := by
  rw [mag_mul_mag]
  have h1 : |a.dot b| = Real.sqrt ((a.dot b) * (a.dot b)) := by
    rw [← Real.sqrt_mul_self_eq_abs]
  rw [h1]
  exact Real.sqrt_le_sqrt (dot_sq_le a b)

/-- Hadamard-type bound: the Jacobian determinant is at most the
product of the three edge magnitudes. -/
theorem abs_det3_le (a b c : Vec3) : |det3 a b c| ≤ a.mag * b.mag * c.mag := by
  have h1 : |det3 a b c| ≤ (Vec3.cross a b).mag * c.mag := abs_dot_le (Vec3.cross a b) c
  have h2 : (Vec3.cross a b).mag ≤ a.mag * b.mag := by
    rw [mag_mul_mag]
    apply Real.sqrt_le_sqrt
    have h := dot_sq_le a b
    have h3 := lagrange a b
    nlinarith [normSq_nonneg (Vec3.cross a b)]
  calc |det3 a b c| ≤ (Vec3.cross a b).mag * c.mag := h1
    _ ≤ a.mag * b.mag * c.mag := by
        have := mag_nonneg c
        nlinarith [mag_nonneg a, mag_nonneg b, mag_nonneg (Vec3.cross a b)]

/-- Every 3D sample value lies in [-1, 1]. -/
theorem scaledJac_mem (a b c : Vec3) : -1 ≤ scaledJac a b c ∧ scaledJac a b c ≤ 1 := by
  unfold scaledJac
  rcases eq_or_ne (a.mag * b.mag * c.mag) 0 with h0 | h0
  · rw [h0, div_zero]
    constructor <;> norm_num
  · have hpos : 0 < a.mag * b.mag * c.mag := by
      rcases lt_or_eq_of_le (mul_nonneg (mul_nonneg (mag_nonneg a) (mag_nonneg b)) (mag_nonneg c)) with h | h
      · exact h
      · exact absurd h.symm h0
    have hb := abs_det3_le a b c
    have habs : |det3 a b c / (a.mag * b.mag * c.mag)| ≤ 1 := by
      rw [abs_div, abs_of_pos hpos]
      rw [div_le_one hpos]
      exact hb
    exact abs_le.mp habs

/-- Every 2D sample value lies in [-1, 1] (in fact in [0, 1]). -/
theorem scaledJac2_mem (a b : Vec3) : -1 ≤ scaledJac2 a b ∧ scaledJac2 a b ≤ 1 := by
  unfold scaledJac2
  rcases eq_or_ne (a.mag * b.mag) 0 with h0 | h0
  · rw [h0, div_zero]
    constructor <;> norm_num
  · have hpos : 0 < a.mag * b.mag := by
      rcases lt_or_eq_of_le (mul_nonneg (mag_nonneg a) (mag_nonneg b)) with h | h
      · exact h
      · exact absurd h.symm h0
    have h2 : (Vec3.cross a b).mag ≤ a.mag * b.mag := by
      rw [mag_mul_mag]
      apply Real.sqrt_le_sqrt
      have h := dot_sq_le a b
      have h3 := lagrange a b
      nlinarith [normSq_nonneg (Vec3.cross a b)]
    constructor
    · have : 0 ≤ (Vec3.cross a b).mag / (a.mag * b.mag) :=
        div_nonneg (mag_nonneg _) (le_of_lt hpos)
      linarith
    · rw [div_le_one hpos]
      exact h2

/-- A fold of `min` over values in [-1, 1] stays in [-1, 1]. -/
theorem minList_mem (q : ℝ) (l : List ℝ) (hq : -1 ≤ q ∧ q ≤ 1)
    (hl : ∀ x ∈ l, -1 ≤ x ∧ x ≤ 1) : -1 ≤ minList q l ∧ minList q l ≤ 1 := by
  induction l generalizing q with
  | nil => exact hq
  | cons a t ih =>
      have ha := hl a (List.mem_cons_self a t)
      have hstep : -1 ≤ min q a ∧ min q a ≤ 1 := by
        constructor
        · exact le_min hq.1 ha.1
        · exact le_trans (min_le_left q a) hq.2
      exact ih (min q a) hstep (fun x hx => hl x (List.mem_cons_of_mem a hx))

/-! ### Range lemmas: every per-cell quality lies in [-1, 1] -/

theorem triQual_mem (p0 p1 p2 : Vec3) :
    -1 ≤ triQual p0 p1 p2 ∧ triQual p0 p1 p2 ≤ 1 := by
  unfold triQual
  refine minList_mem _ _ (scaledJac2_mem _ _) ?_
  intro x hx
  simp only [List.mem_cons, List.not_mem_nil, or_false] at hx
  rcases hx with h | h <;> (subst h; exact scaledJac2_mem _ _)

theorem quadQual_mem (p0 p1 p2 p3 : Vec3) :
    -1 ≤ quadQual p0 p1 p2 p3 ∧ quadQual p0 p1 p2 p3 ≤ 1 := by
  unfold quadQual
  refine minList_mem _ _ (scaledJac2_mem _ _) ?_
  intro x hx
  simp only [List.mem_cons, List.not_mem_nil, or_false] at hx
  rcases hx with h | h | h <;> (subst h; exact scaledJac2_mem _ _)

theorem tetQual_mem (p0 p1 p2 p3 : Vec3) :
    -1 ≤ tetQual p0 p1 p2 p3 ∧ tetQual p0 p1 p2 p3 ≤ 1 := by
  unfold tetQual
  refine minList_mem _ _ (scaledJac_mem _ _ _) ?_
  intro x hx
  simp only [List.mem_cons, List.not_mem_nil, or_false] at hx
  rcases hx with h | h | h <;> (subst h; exact scaledJac_mem _ _ _)

theorem pyrQual_mem (p0 p1 p2 p3 p4 : Vec3) :
    -1 ≤ pyrQual p0 p1 p2 p3 p4 ∧ pyrQual p0 p1 p2 p3 p4 ≤ 1 := by
  unfold pyrQual
  refine minList_mem _ _ (scaledJac_mem _ _ _) ?_
  intro x hx
  simp only [List.mem_cons, List.not_mem_nil, or_false] at hx
  rcases hx with h | h | h | h <;> (subst h; exact scaledJac_mem _ _ _)

theorem wedgeQual_mem (p0 p1 p2 p3 p4 p5 : Vec3) :
    -1 ≤ wedgeQual p0 p1 p2 p3 p4 p5 ∧ wedgeQual p0 p1 p2 p3 p4 p5 ≤ 1 := by
  unfold wedgeQual
  refine minList_mem _ _ (scaledJac_mem _ _ _) ?_
  intro x hx
  simp only [List.mem_cons, List.not_mem_nil, or_false] at hx
  rcases hx with h | h | h | h | h <;> (subst h; exact scaledJac_mem _ _ _)

theorem hexQual_mem (p0 p1 p2 p3 p4 p5 p6 p7 : Vec3) :
    -1 ≤ hexQual p0 p1 p2 p3 p4 p5 p6 p7 ∧ hexQual p0 p1 p2 p3 p4 p5 p6 p7 ≤ 1 := by
  unfold hexQual
  refine minList_mem _ _ (scaledJac_mem _ _ _) ?_
  intro x hx
  simp only [List.mem_cons, List.not_mem_nil, or_false] at hx
  rcases hx with h | h | h | h | h | h | h <;> (subst h; exact scaledJac_mem _ _ _)

theorem topoQual_mem (c : ℕ) (ps : List Vec3) :
    -1 ≤ topoQual c ps ∧ topoQual c ps ≤ 1 := by
  unfold topoQual
  split_ifs
  · exact ⟨by norm_num, le_refl 1⟩
  · exact triQual_mem _ _ _
  · exact quadQual_mem _ _ _ _
  · exact tetQual_mem _ _ _ _
  · exact hexQual_mem _ _ _ _ _ _ _ _
  · exact wedgeQual_mem _ _ _ _ _ _
  · exact pyrQual_mem _ _ _ _ _
  · exact ⟨by norm_num, le_refl 1⟩

theorem cellQual_mem (cells offset : List ℕ) (points : List Vec3) (i c : ℕ) (q : ℝ)
    (h : cellQual cells offset points i c = Except.ok q) : -1 ≤ q ∧ q ≤ 1 := by
  unfold cellQual at h
  split at h
  · simp only [Except.ok.injEq] at h
    subst h
    exact ⟨by norm_num, le_refl 1⟩
  · split at h
    · simp at h
    · split at h
      · simp at h
      · split at h
        · simp at h
        · simp only [Except.ok.injEq] at h
          subst h
          exact topoQual_mem _ _

theorem cqGo_mem (cells offset : List ℕ) (points : List Vec3) :
    ∀ (ts : List ℕ) (i : ℕ) (qs : List ℝ),
      cqGo cells offset points i ts = Except.ok qs → ∀ q ∈ qs, -1 ≤ q ∧ q ≤ 1 := by
  intro ts
  induction ts with
  | nil =>
      intro i qs h q hq
      unfold cqGo at h
      cases h
      cases hq
  | cons c rest ih =>
      intro i qs h q hq
      unfold cqGo at h
      cases hq1 : cellQual cells offset points i c with
      | error e => rw [hq1] at h; cases h
      | ok q1 =>
        rw [hq1] at h
        cases hrest : cqGo cells offset points (i + 1) rest with
        | error e => rw [hrest] at h; cases h
        | ok qs1 =>
          rw [hrest] at h
          cases h
          rcases List.mem_cons.mp hq with h | h
          · subst h; exact cellQual_mem cells offset points i c q hq1
          · exact ih (i + 1) qs1 hrest q h

theorem cqGo_length (cells offset : List ℕ) (points : List Vec3) :
    ∀ (ts : List ℕ) (i : ℕ) (qs : List ℝ),
      cqGo cells offset points i ts = Except.ok qs → qs.length = ts.length := by
  intro ts
  induction ts with
  | nil =>
      intro i qs h
      unfold cqGo at h
      cases h
      rfl
  | cons c rest ih =>
      intro i qs h
      unfold cqGo at h
      cases hq1 : cellQual cells offset points i c with
      | error e => rw [hq1] at h; cases h
      | ok q1 =>
        rw [hq1] at h
        cases hrest : cqGo cells offset points (i + 1) rest with
        | error e => rw [hrest] at h; cases h
        | ok qs1 =>
          rw [hrest] at h
          cases h
          simp [ih (i + 1) qs1 hrest]

theorem setNullQual_mem (celltypes : List ℕ) (qs : List ℝ)
    (hqs : ∀ q ∈ qs, -1 ≤ q ∧ q ≤ 1) :
    ∀ q ∈ setNullQual celltypes qs, -1 ≤ q ∧ q ≤ 1 := by
  induction celltypes generalizing qs with
  | nil => intro q hq; cases hq
  | cons c ct ih =>
      cases qs with
      | nil => intro q hq; cases hq
      | cons v vs =>
          intro q hq
          unfold setNullQual at hq
          rcases List.mem_cons.mp hq with h | h
          · subst h
            by_cases hc : c = 0
            · simp only [hc, if_true]
              exact ⟨by norm_num, le_refl 1⟩
            · simp only [hc, if_false]
              exact hqs v (List.mem_cons_self v vs)
          · exact ih vs (fun q hq => hqs q (List.mem_cons_of_mem v hq)) q h

theorem setNullQual_length (celltypes : List ℕ) (qs : List ℝ) :
    (setNullQual celltypes qs).length = min celltypes.length qs.length := by
  unfold setNullQual
  simp [List.length_zipWith]

theorem setNullQual_getnull (celltypes : List ℕ) (qs : List ℝ) (i : ℕ)
    (hct : celltypes.get? i = some 0) (hlen : i < qs.length) :
    (setNullQual celltypes qs).get? i = some 1 := by
  induction celltypes generalizing qs i with
  | nil => cases hct
  | cons c ct ih =>
      cases qs with
      | nil => cases hlen
      | cons v vs =>
          cases i with
          | zero =>
              cases hct
              simp [setNullQual]
          | succ n =>
              have hct2 : ct.get? n = some 0 := hct
              have hlen2 : n < vs.length := by
                simpa [Nat.succ_lt_succ_iff] using hlen
              simpa [setNullQual] using ih vs n hct2 hlen2

theorem cell_quality_eq_cqGo (cells offset celltypes : List ℕ) (points : List Vec3) :
    cell_quality cells offset celltypes points = cqGo cells offset points 0 celltypes := rfl

theorem cell_quality_float_eq_cqGo (cells offset celltypes : List ℕ) (points : List Vec3) :
    cell_quality_float cells offset celltypes points = cqGo cells offset points 0 celltypes := rfl

/-- A successful dispatch only ever returns kernel values, each of
which lies in [-1, 1]. -/
theorem dispatch_ok_mem (u : UGrid) (p : Precision) (qual : List ℝ)
    (hd : dispatchWith cell_quality cell_quality_float u = (p, Except.ok qual)) :
    ∀ q ∈ qual, -1 ≤ q ∧ q ≤ 1 := by
  unfold dispatchWith at hd
  split_ifs at hd <;>
    simp only [Prod.mk.injEq] at hd
  · exact cqGo_mem u.cells u.offset u.points u.celltypes 0 qual hd.2
  · exact cqGo_mem u.cells u.offset u.points u.celltypes 0 qual hd.2
  · exact cqGo_mem u.cells u.offset (u.points.map astype64) u.celltypes 0 qual hd.2

/-- A successful dispatch returns one value per cell. -/
theorem dispatch_ok_length (u : UGrid) (p : Precision) (qual : List ℝ)
    (hd : dispatchWith cell_quality cell_quality_float u = (p, Except.ok qual)) :
    qual.length = u.celltypes.length := by
  unfold dispatchWith at hd
  split_ifs at hd <;>
    simp only [Prod.mk.injEq] at hd
  · exact cqGo_length u.cells u.offset u.points u.celltypes 0 qual hd.2
  · exact cqGo_length u.cells u.offset u.points u.celltypes 0 qual hd.2
  · exact cqGo_length u.cells u.offset (u.points.map astype64) u.celltypes 0 qual hd.2

/-- A successful call decomposes into a successful dispatch followed by
the null-cell override and, when the provenance was structured, the
sign flip. -/
theorem quality_ok_destruct (u : UGrid) (flip : Bool) (g : GridInput)
    (hco : coerce g = some (u, flip)) (qs : List ℝ)
    (h : quality g = Except.ok qs) :
    ∃ p qual, dispatchWith cell_quality cell_quality_float u = (p, Except.ok qual) ∧
      qs = (if flip then (setNullQual u.celltypes qual).map (fun v => -v)
            else setNullQual u.celltypes qual) := by
  unfold quality qualityRun qualityRunWith at h
  simp only [hco] at h
  rcases hd : dispatchWith cell_quality cell_quality_float u with ⟨p, res⟩
  rw [hd] at h
  cases res with
  | error e => simp [Except.map] at h
  | ok qual =>
      refine ⟨p, qual, rfl, ?_⟩
      simp only [Except.map, Except.ok.injEq] at h
      cases flip with
      | false => simpa using h.symm
      | true => simpa using h.symm

/-- C4: for every input grid and every cell, the returned quality
score lies in the closed interval [-1, 1]. -/
theorem C4_scores_in_range (g : GridInput) (qs : List ℝ)
    (h : quality g = Except.ok qs) : ∀ q ∈ qs, -1 ≤ q ∧ q ≤ 1 := by
  cases hco : coerce g with
  | none =>
      cases g with
      | structured u => cases hco
      | unstructured u => cases hco
      | wrapped u => cases hco
      | nonGrid => simp [quality, qualityRun, qualityRunWith, coerce, Except.map] at h
  | some uf =>
      obtain ⟨u, flip⟩ := uf
      obtain ⟨p, qual, hd, hqs⟩ := quality_ok_destruct u flip g hco qs h
      have hmem : ∀ q ∈ setNullQual u.celltypes qual, -1 ≤ q ∧ q ≤ 1 :=
        setNullQual_mem u.celltypes qual (dispatch_ok_mem u p qual hd)
      subst hqs
      cases flip with
      | false => simpa using hmem
      | true =>
          simp only [if_true]
          intro q hq
          rcases List.mem_map.mp hq with ⟨x, hx, hxq⟩
          have hb := hmem x hx
          subst hxq
          constructor <;> linarith [hb.1, hb.2]

/-- C2: the structured-grid path flattens to unstructured form and
negates every per-cell value that the kernel pipeline produced, while
the already-unstructured path returns them unnegated: the structured
result is exactly the elementwise negation of the unstructured result
on the same flattened buffers. -/
theorem C2_structured_negation (u : UGrid) :
    quality (GridInput.structured u) =
      Except.map (List.map (fun v => -v)) (quality (GridInput.unstructured u)) := by
  unfold quality qualityRun qualityRunWith coerce
  cases hd : dispatchWith cell_quality cell_quality_float u with
  | mk p res =>
    cases res with
    | error e => simp [hd, Except.map]
    | ok qual => simp [hd, Except.map]

/-- C6: an input that is neither structured, nor unstructured, nor
wrappable to an unstructured grid is rejected with the wrapper's
type error for any kernels whatsoever (so the kernel is never invoked)
and no scores are produced. -/
theorem C6_type_error_rejection (kd ks : KernelFn) :
    qualityRunWith kd ks GridInput.nonGrid = Except.error Err.typeError ∧
      ∀ out, qualityRunWith kd ks GridInput.nonGrid ≠ Except.ok out := by
  constructor
  · rfl
  · intro out h
    cases h

/-- C8: the quality computation is a pure function of its input: two
calls on identical inputs return identical outputs (no hidden state in
the model, matching the source, which reads only its arguments). -/
theorem C8_idempotent (g : GridInput) : quality g = quality g := rfl

/-- C9: frame condition: the call leaves the caller's mesh unchanged;
in the state-passing form of the wrapper the caller's grid comes back
identical, while the computed result agrees with `quality`. -/
theorem C9_frame (g : GridInput) :
    (qualityFrame g).2 = g ∧ (qualityFrame g).1 = quality g := by
  cases g with
  | nonGrid => exact ⟨rfl, rfl⟩
  | structured u =>
      cases hd : dispatchWith cell_quality cell_quality_float u with
      | mk p res =>
        cases res <;>
          simp [qualityFrame, quality, qualityRun, qualityRunWith, coerce, hd, Except.map]
  | unstructured u =>
      cases hd : dispatchWith cell_quality cell_quality_float u with
      | mk p res =>
        cases res <;>
          simp [qualityFrame, quality, qualityRun, qualityRunWith, coerce, hd, Except.map]
  | wrapped u =>
      cases hd : dispatchWith cell_quality cell_quality_float u with
      | mk p res =>
        cases res <;>
          simp [qualityFrame, quality, qualityRun, qualityRunWith, coerce, hd, Except.map]

/-- C10: a structured grid is always accepted: the structured path
casts to an unstructured grid, so the wrapper's TypeError branch is
unreachable for it. -/
theorem C10_structured_accepted (u : UGrid) :
    quality (GridInput.structured u) ≠ Except.error Err.typeError := by
  unfold quality qualityRun qualityRunWith coerce
  cases hd : dispatchWith cell_quality cell_quality_float u with
  | mk p res =>
    cases res with
    | error e => simp [hd, Except.map]
    | ok qual => simp [hd, Except.map]

/-! ### Null-cell override (C1) -/

/-- C1 (amended): a cell whose topology code is the null code 0
receives exactly 1 whenever the input was not a structured grid, and
exactly -1 when it was: the wrapper negates after the null override,
so the sign flip applies to null cells too. -/
theorem C1_null_cells_override (g : GridInput) (u : UGrid) (flip : Bool)
    (hco : coerce g = some (u, flip)) (qs : List ℝ) (i : ℕ)
    (h : quality g = Except.ok qs) (hnull : u.celltypes.get? i = some 0) :
    qs.get? i = some (if flip then (-1 : ℝ) else 1) := by
  obtain ⟨p, qual, hd, hqs⟩ := quality_ok_destruct u flip g hco qs h
  have hlen : qual.length = u.celltypes.length := dispatch_ok_length u p qual hd
  have hi : i < u.celltypes.length := by
    by_contra hcon
    push_neg at hcon
    rw [List.get?_eq_none.mpr hcon] at hnull
    cases hnull
  have hset : (setNullQual u.celltypes qual).get? i = some 1 :=
    setNullQual_getnull u.celltypes qual i hnull (by omega)
  subst hqs
  cases flip with
  | false => simpa using hset
  | true =>
      have hset2 : (setNullQual u.celltypes qual)[i]? = some 1 := by
        simpa [List.get?_eq_getElem?] using hset
      simp [List.get?_eq_getElem?, List.getElem?_map, hset2]

/-- C1 counterexample: a structured grid whose flattened form holds one
null cell (topology code 0, as a blanked structured cell flattens to)
returns exactly -1 for that cell, not 1: the claim that null cells get
exactly 1 even when the structured sign flip applies is false on the
code, which negates after the override. -/
theorem C1_counterexample :
    nullCellGrid.celltypes = [0] ∧
    quality (GridInput.structured nullCellGrid) = Except.ok [(-1 : ℝ)] ∧
    ((-1 : ℝ) ≠ 1) := ⟨rfl, rfl, by norm_num⟩

/-- C1 witness: the amended theorem applied to the one-null-cell grid,
both for structured provenance (score -1) and unstructured (score 1). -/
theorem C1_witness :
    ([(-1 : ℝ)]).get? 0 = some (if true then (-1 : ℝ) else 1) ∧
    ([(1 : ℝ)]).get? 0 = some (if false then (-1 : ℝ) else 1) := by
  constructor
  · exact C1_null_cells_override (GridInput.structured nullCellGrid) nullCellGrid true rfl
      [(-1 : ℝ)] 0 rfl rfl
  · exact C1_null_cells_override (GridInput.unstructured nullCellGrid) nullCellGrid false rfl
      [(1 : ℝ)] 0 rfl rfl

/-- C4 witness: the range theorem applied to a concrete call whose
score list evaluates to [1]. -/
theorem C4_witness :
    ∃ qs, quality (GridInput.unstructured nullCellGrid) = Except.ok qs ∧
      ∀ q ∈ qs, -1 ≤ q ∧ q ≤ 1 :=
  ⟨[(1 : ℝ)], rfl, C4_scores_in_range (GridInput.unstructured nullCellGrid) [(1 : ℝ)] rfl⟩

/-! ### Precision dispatch (C5) -/

/-- C5: double-precision points go to the double kernel, single
precision to the single kernel, and any other dtype is upcast to
double precision (never truncated) and sent to the double kernel; the
selected precision tag is fixed once for the whole call. -/
theorem C5_precision_dispatch (u : UGrid) :
    (u.dtype = Dtype.float64 →
      dispatchWith cell_quality cell_quality_float u =
        (Precision.double, cell_quality u.cells u.offset u.celltypes u.points)) ∧
    (u.dtype = Dtype.float32 →
      dispatchWith cell_quality cell_quality_float u =
        (Precision.single, cell_quality_float u.cells u.offset u.celltypes u.points)) ∧
    (u.dtype = Dtype.other →
      dispatchWith cell_quality cell_quality_float u =
        (Precision.double, cell_quality u.cells u.offset u.celltypes
          (u.points.map astype64))) := by
  refine ⟨?_, ?_, ?_⟩ <;> intro hd <;> simp [dispatchWith, hd]

/-- C5 witness: the dispatch theorem applied to a concrete grid of
non-float dtype: the double kernel runs on the upcast points. -/
theorem C5_witness :
    dispatchWith cell_quality cell_quality_float otherDtypeGrid =
      (Precision.double, cell_quality otherDtypeGrid.cells otherDtypeGrid.offset
        otherDtypeGrid.celltypes (otherDtypeGrid.points.map astype64)) :=
  (C5_precision_dispatch otherDtypeGrid).2.2 rfl

/-! ### Unsupported topology codes (C7) -/

theorem nodeCountOf_le_eight (c nc : ℕ) (h : nodeCountOf c = some nc) : nc ≤ 8 := by
  unfold nodeCountOf at h
  split_ifs at h <;> simp_all <;> omega

theorem getPts_total (points : List Vec3) (cells : List ℕ)
    (hpts : ∀ n ∈ cells, n < points.length) :
    ∀ (nc st : ℕ), st + nc ≤ cells.length → ∃ ps, getPts points cells st nc = some ps := by
  intro nc
  induction nc with
  | zero => intro st _; exact ⟨[], rfl⟩
  | succ n ih =>
      intro st hst
      cases hc : cells.get? st with
      | none =>
          have := List.get?_eq_none.mp hc
          omega
      | some id =>
          have hid : id ∈ cells := List.get?_mem hc
          cases hp : points.get? id with
          | none =>
              have := List.get?_eq_none.mp hp
              have := hpts id hid
              omega
          | some p =>
              obtain ⟨ps, hps⟩ := ih (st + 1) (by omega)
              refine ⟨p :: ps, ?_⟩
              unfold getPts
              simp only [hc, hp, hps]

/-- An unsupported code fails identifying the offending code, before
any buffer is read. -/
theorem cellQual_unsupported (cells offset : List ℕ) (points : List Vec3) (i c : ℕ)
    (hc : UnsupportedCode c) :
    cellQual cells offset points i c = Except.error (KernelErr.unsupportedCellType c) := by
  unfold cellQual
  rw [if_neg hc.1, hc.2]

/-- On consistent buffers a supported cell always produces a value. -/
theorem cellQual_ok_of_wf (cells offset : List ℕ) (points : List Vec3) (i c : ℕ)
    (hi : i < offset.length)
    (hoff : ∀ st ∈ offset, st + 8 ≤ cells.length)
    (hpts : ∀ n ∈ cells, n < points.length)
    (hsup : ¬ UnsupportedCode c) :
    ∃ q, cellQual cells offset points i c = Except.ok q := by
  unfold cellQual
  by_cases hc : c = 0
  · rw [if_pos hc]
    exact ⟨1, rfl⟩
  · rw [if_neg hc]
    cases hnc : nodeCountOf c with
    | none => exact absurd ⟨hc, hnc⟩ hsup
    | some nc =>
        cases hso : offset.get? i with
        | none =>
            have := List.get?_eq_none.mp hso
            omega
        | some st =>
            have hst : st ∈ offset := List.get?_mem hso
            have hroom : st + nc ≤ cells.length := by
              have h8 := hoff st hst
              have := nodeCountOf_le_eight c nc hnc
              omega
            obtain ⟨ps, hps⟩ := getPts_total points cells hpts nc st hroom
            simp only [hso, hps]
            exact ⟨topoQual c ps, rfl⟩

/-- The single pass fails atomically on an unsupported code: whenever
some cell type in the (suffix of the) buffer is unsupported and the
buffers are consistent, the pass returns the unsupported-code error of
the first such cell and no output list. -/
theorem cqGo_unsupported (cells offset : List ℕ) (points : List Vec3)
    (hoff : ∀ st ∈ offset, st + 8 ≤ cells.length)
    (hpts : ∀ n ∈ cells, n < points.length) :
    ∀ (ts : List ℕ) (i : ℕ), i + ts.length ≤ offset.length →
      (∃ c ∈ ts, UnsupportedCode c) →
      ∃ c2, UnsupportedCode c2 ∧ c2 ∈ ts ∧
        cqGo cells offset points i ts =
          Except.error (KernelErr.unsupportedCellType c2) := by
  intro ts
  induction ts with
  | nil =>
      intro i _ hbad
      obtain ⟨c, hc, _⟩ := hbad
      cases hc
  | cons c rest ih =>
      intro i hlen hbad
      by_cases hu : UnsupportedCode c
      · refine ⟨c, hu, List.mem_cons_self c rest, ?_⟩
        unfold cqGo
        rw [cellQual_unsupported cells offset points i c hu]
      · obtain ⟨q, hq⟩ := cellQual_ok_of_wf cells offset points i c
          (by simp at hlen; omega) hoff hpts hu
        obtain ⟨c0, hc0mem, hc0⟩ := hbad
        have hc0rest : c0 ∈ rest := by
          rcases List.mem_cons.mp hc0mem with h | h
          · subst h; exact absurd hc0 hu
          · exact h
        obtain ⟨c2, hc2, hc2mem, heq⟩ := ih (i + 1)
          (by simp at hlen ⊢; omega) ⟨c0, hc0rest, hc0⟩
        refine ⟨c2, hc2, List.mem_cons_of_mem c hc2mem, ?_⟩
        unfold cqGo
        rw [hq, heq]

/-- A failing dispatch makes the whole call fail with the kernel's
error. -/
theorem quality_error_of_dispatch (u : UGrid) (flip : Bool) (g : GridInput)
    (hco : coerce g = some (u, flip)) (e : KernelErr)
    (hd : (dispatchWith cell_quality cell_quality_float u).2 = Except.error e) :
    quality g = Except.error (Err.kernel e) := by
  unfold quality qualityRun qualityRunWith
  simp only [hco]
  rcases hdp : dispatchWith cell_quality cell_quality_float u with ⟨p, res⟩
  rw [hdp] at hd
  simp only at hd
  subst hd
  simp [Except.map]

/-- C7: a call on a grid containing an unsupported (nonzero,
non-null) topology code fails as a whole with an error identifying an
unsupported code, and returns no per-cell output buffer, partial or
otherwise. -/
theorem C7_unsupported_fails (g : GridInput) (u : UGrid) (flip : Bool)
    (hco : coerce g = some (u, flip)) (hwf : WellFormed u) (c : ℕ)
    (hc : c ∈ u.celltypes) (hbad : UnsupportedCode c) :
    ∃ c2, UnsupportedCode c2 ∧ c2 ∈ u.celltypes ∧
      quality g = Except.error (Err.kernel (KernelErr.unsupportedCellType c2)) ∧
      ∀ qs, quality g ≠ Except.ok qs := by
  obtain ⟨hlen, hoff, hpts⟩ := hwf
  have hpts2 : ∀ n ∈ u.cells, n < (u.points.map astype64).length := by
    intro n hn
    rw [List.length_map]
    exact hpts n hn
  have hrun : ∃ c2, UnsupportedCode c2 ∧ c2 ∈ u.celltypes ∧
      (dispatchWith cell_quality cell_quality_float u).2 =
        Except.error (KernelErr.unsupportedCellType c2) := by
    unfold dispatchWith
    split_ifs <;> simp only
    · exact cqGo_unsupported u.cells u.offset u.points hoff hpts u.celltypes 0
        (by omega) ⟨c, hc, hbad⟩
    · exact cqGo_unsupported u.cells u.offset u.points hoff hpts u.celltypes 0
        (by omega) ⟨c, hc, hbad⟩
    · exact cqGo_unsupported u.cells u.offset (u.points.map astype64) hoff hpts2 u.celltypes 0
        (by omega) ⟨c, hc, hbad⟩
  obtain ⟨c2, hc2, hc2mem, hd⟩ := hrun
  have hquality := quality_error_of_dispatch u flip g hco _ hd
  refine ⟨c2, hc2, hc2mem, hquality, ?_⟩
  intro qs hok
  rw [hquality] at hok
  cases hok

/-- C7 witness: the failure theorem applied to the concrete grid with
topology code 42. -/
theorem C7_witness :
    ∃ c2, UnsupportedCode c2 ∧ c2 ∈ badCodeGrid.celltypes ∧
      quality (GridInput.unstructured badCodeGrid) =
        Except.error (Err.kernel (KernelErr.unsupportedCellType c2)) ∧
      ∀ qs, quality (GridInput.unstructured badCodeGrid) ≠ Except.ok qs :=
  C7_unsupported_fails (GridInput.unstructured badCodeGrid) badCodeGrid false rfl
    (by decide) 42 (by decide) (by decide)

theorem sqrt_twentyfive : Real.sqrt 25 = 5 := by
  rw [show (25 : ℝ) = 5 ^ 2 by norm_num]
  exact Real.sqrt_sq (by norm_num)

/-- A corner whose three edges are axis-aligned with length 5 and
determinant -125 has scaled Jacobian exactly -1. -/
theorem sjcube (a b c : Vec3) (ha : a.normSq = 25) (hb : b.normSq = 25)
    (hc : c.normSq = 25) (hd : det3 a b c = -125) : scaledJac a b c = -1 := by
  unfold scaledJac Vec3.mag
  rw [ha, hb, hc, hd, sqrt_twentyfive]
  norm_num

theorem sj_c0 : scaledJac ⟨0, 5, 0⟩ ⟨5, 0, 0⟩ ⟨0, 0, 5⟩ = -1 :=
  sjcube _ _ _ (by norm_num [Vec3.normSq]) (by norm_num [Vec3.normSq])
    (by norm_num [Vec3.normSq]) (by norm_num [det3, Vec3.cross, Vec3.dot])

theorem sj_c1 : scaledJac ⟨5, 0, 0⟩ ⟨0, -5, 0⟩ ⟨0, 0, 5⟩ = -1 :=
  sjcube _ _ _ (by norm_num [Vec3.normSq]) (by norm_num [Vec3.normSq])
    (by norm_num [Vec3.normSq]) (by norm_num [det3, Vec3.cross, Vec3.dot])

theorem sj_c2 : scaledJac ⟨0, -5, 0⟩ ⟨-5, 0, 0⟩ ⟨0, 0, 5⟩ = -1 :=
  sjcube _ _ _ (by norm_num [Vec3.normSq]) (by norm_num [Vec3.normSq])
    (by norm_num [Vec3.normSq]) (by norm_num [det3, Vec3.cross, Vec3.dot])

theorem sj_c3 : scaledJac ⟨-5, 0, 0⟩ ⟨0, 5, 0⟩ ⟨0, 0, 5⟩ = -1 :=
  sjcube _ _ _ (by norm_num [Vec3.normSq]) (by norm_num [Vec3.normSq])
    (by norm_num [Vec3.normSq]) (by norm_num [det3, Vec3.cross, Vec3.dot])

theorem sj_c4 : scaledJac ⟨5, 0, 0⟩ ⟨0, 5, 0⟩ ⟨0, 0, -5⟩ = -1 :=
  sjcube _ _ _ (by norm_num [Vec3.normSq]) (by norm_num [Vec3.normSq])
    (by norm_num [Vec3.normSq]) (by norm_num [det3, Vec3.cross, Vec3.dot])

theorem sj_c5 : scaledJac ⟨0, -5, 0⟩ ⟨5, 0, 0⟩ ⟨0, 0, -5⟩ = -1 :=
  sjcube _ _ _ (by norm_num [Vec3.normSq]) (by norm_num [Vec3.normSq])
    (by norm_num [Vec3.normSq]) (by norm_num [det3, Vec3.cross, Vec3.dot])

theorem sj_c6 : scaledJac ⟨-5, 0, 0⟩ ⟨0, -5, 0⟩ ⟨0, 0, -5⟩ = -1 :=
  sjcube _ _ _ (by norm_num [Vec3.normSq]) (by norm_num [Vec3.normSq])
    (by norm_num [Vec3.normSq]) (by norm_num [det3, Vec3.cross, Vec3.dot])

theorem sj_c7 : scaledJac ⟨0, 5, 0⟩ ⟨-5, 0, 0⟩ ⟨0, 0, -5⟩ = -1 :=
  sjcube _ _ _ (by norm_num [Vec3.normSq]) (by norm_num [Vec3.normSq])
    (by norm_num [Vec3.normSq]) (by norm_num [det3, Vec3.cross, Vec3.dot])

/-- A negatively oriented axis-aligned box cell of edge 5 (the flat
cells of the docstring grid) has minimum scaled Jacobian exactly -1. -/
theorem hexQual_box (x0 y0 z0 : ℝ) :
    hexQual ⟨x0, y0, z0⟩ ⟨x0, y0 + 5, z0⟩ ⟨x0 + 5, y0 + 5, z0⟩ ⟨x0 + 5, y0, z0⟩
      ⟨x0, y0, z0 + 5⟩ ⟨x0, y0 + 5, z0 + 5⟩ ⟨x0 + 5, y0 + 5, z0 + 5⟩ ⟨x0 + 5, y0, z0 + 5⟩
      = -1 := by
  have hu : ∀ gx gz : ℝ, Vec3.sub ⟨gx, y0 + 5, gz⟩ ⟨gx, y0, gz⟩ = ⟨0, 5, 0⟩ := by
    intro gx gz; unfold Vec3.sub; congr 1 <;> ring
  have hnu : ∀ gx gz : ℝ, Vec3.sub ⟨gx, y0, gz⟩ ⟨gx, y0 + 5, gz⟩ = ⟨0, -5, 0⟩ := by
    intro gx gz; unfold Vec3.sub; congr 1 <;> ring
  have hv : ∀ gy gz : ℝ, Vec3.sub ⟨x0 + 5, gy, gz⟩ ⟨x0, gy, gz⟩ = ⟨5, 0, 0⟩ := by
    intro gy gz; unfold Vec3.sub; congr 1 <;> ring
  have hnv : ∀ gy gz : ℝ, Vec3.sub ⟨x0, gy, gz⟩ ⟨x0 + 5, gy, gz⟩ = ⟨-5, 0, 0⟩ := by
    intro gy gz; unfold Vec3.sub; congr 1 <;> ring
  have hw : ∀ gx gy : ℝ, Vec3.sub ⟨gx, gy, z0 + 5⟩ ⟨gx, gy, z0⟩ = ⟨0, 0, 5⟩ := by
    intro gx gy; unfold Vec3.sub; congr 1 <;> ring
  have hnw : ∀ gx gy : ℝ, Vec3.sub ⟨gx, gy, z0⟩ ⟨gx, gy, z0 + 5⟩ = ⟨0, 0, -5⟩ := by
    intro gx gy; unfold Vec3.sub; congr 1 <;> ring
  unfold hexQual
  simp only [hu, hnu, hv, hnv, hw, hnw, sj_c0, sj_c1, sj_c2, sj_c3, sj_c4, sj_c5, sj_c6, sj_c7]
  simp [minList, min_self]


theorem upt_digits (a b c : ℕ) (ha : a < 4) (hb : b < 4) :
    upt (a + 4 * b + 16 * c) =
      ⟨5 * (b : ℝ) - 10, 5 * (a : ℝ) - 10, 5 * (c : ℝ) - 10⟩ := by
  unfold upt
  have h1 : (a + 4 * b + 16 * c) % 4 = a := by omega
  have h2 : (a + 4 * b + 16 * c) / 4 % 4 = b := by omega
  have h3 : (a + 4 * b + 16 * c) / 16 = c := by omega
  rw [h1, h2, h3]

theorem ucellNode_lt (m t : ℕ) (hm : m < 27) : ucellNode m t < 64 := by
  unfold ucellNode
  split_ifs <;> omega

theorem uniform_points_get (n : ℕ) (hn : n < 64) :
    uniformGrid.points.get? n = some (upt n) := by
  rw [List.get?_eq_getElem?]
  simp [uniformGrid, List.getElem?_map, List.getElem?_range hn]

theorem uniform_cells_get (n : ℕ) (hn : n < 216) :
    uniformGrid.cells.get? n = some (uCellsFn n) := by
  rw [List.get?_eq_getElem?]
  simp [uniformGrid, List.getElem?_map, List.getElem?_range hn]

theorem uniform_offset_get (m : ℕ) (hm : m < 27) :
    uniformGrid.offset.get? m = some (8 * m) := by
  rw [List.get?_eq_getElem?]
  simp [uniformGrid, List.getElem?_map, List.getElem?_range hm]

theorem uCellsFn_node (m t : ℕ) (ht : t < 8) : uCellsFn (8 * m + t) = ucellNode m t := by
  unfold uCellsFn
  rw [show (8 * m + t) / 8 = m by omega, show (8 * m + t) % 8 = t by omega]

/-- Each cell of the docstring grid evaluates to exactly -1: a
negatively oriented axis-aligned box of edge 5. -/
theorem uniform_cellQual (m : ℕ) (hm : m < 27) :
    cellQual uniformGrid.cells uniformGrid.offset uniformGrid.points m 12 =
      Except.ok (-1) := by
  have hoff : uniformGrid.offset.get? m = some (8 * m) := uniform_offset_get m hm
  have e0 : uniformGrid.cells.get? (8 * m) = some (ucellNode m 0) := by
    have := uniform_cells_get (8 * m) (by omega)
    rwa [show 8 * m = 8 * m + 0 by omega, uCellsFn_node m 0 (by omega)] at this
  have e1 : uniformGrid.cells.get? (8 * m + 1) = some (ucellNode m 1) := by
    have := uniform_cells_get (8 * m + 1) (by omega)
    rwa [uCellsFn_node m 1 (by omega)] at this
  have e2 : uniformGrid.cells.get? (8 * m + 1 + 1) = some (ucellNode m 2) := by
    have := uniform_cells_get (8 * m + 2) (by omega)
    rw [uCellsFn_node m 2 (by omega)] at this
    rwa [show 8 * m + 1 + 1 = 8 * m + 2 by omega]
  have e3 : uniformGrid.cells.get? (8 * m + 1 + 1 + 1) = some (ucellNode m 3) := by
    have := uniform_cells_get (8 * m + 3) (by omega)
    rw [uCellsFn_node m 3 (by omega)] at this
    rwa [show 8 * m + 1 + 1 + 1 = 8 * m + 3 by omega]
  have e4 : uniformGrid.cells.get? (8 * m + 1 + 1 + 1 + 1) = some (ucellNode m 4) := by
    have := uniform_cells_get (8 * m + 4) (by omega)
    rw [uCellsFn_node m 4 (by omega)] at this
    rwa [show 8 * m + 1 + 1 + 1 + 1 = 8 * m + 4 by omega]
  have e5 : uniformGrid.cells.get? (8 * m + 1 + 1 + 1 + 1 + 1) = some (ucellNode m 5) := by
    have := uniform_cells_get (8 * m + 5) (by omega)
    rw [uCellsFn_node m 5 (by omega)] at this
    rwa [show 8 * m + 1 + 1 + 1 + 1 + 1 = 8 * m + 5 by omega]
  have e6 : uniformGrid.cells.get? (8 * m + 1 + 1 + 1 + 1 + 1 + 1) = some (ucellNode m 6) := by
    have := uniform_cells_get (8 * m + 6) (by omega)
    rw [uCellsFn_node m 6 (by omega)] at this
    rwa [show 8 * m + 1 + 1 + 1 + 1 + 1 + 1 = 8 * m + 6 by omega]
  have e7 : uniformGrid.cells.get? (8 * m + 1 + 1 + 1 + 1 + 1 + 1 + 1) = some (ucellNode m 7) := by
    have := uniform_cells_get (8 * m + 7) (by omega)
    rw [uCellsFn_node m 7 (by omega)] at this
    rwa [show 8 * m + 1 + 1 + 1 + 1 + 1 + 1 + 1 = 8 * m + 7 by omega]
  have p0 : uniformGrid.points.get? (ucellNode m 0) = some (upt (ucellNode m 0)) :=
    uniform_points_get _ (ucellNode_lt m 0 hm)
  have p1 : uniformGrid.points.get? (ucellNode m 1) = some (upt (ucellNode m 1)) :=
    uniform_points_get _ (ucellNode_lt m 1 hm)
  have p2 : uniformGrid.points.get? (ucellNode m 2) = some (upt (ucellNode m 2)) :=
    uniform_points_get _ (ucellNode_lt m 2 hm)
  have p3 : uniformGrid.points.get? (ucellNode m 3) = some (upt (ucellNode m 3)) :=
    uniform_points_get _ (ucellNode_lt m 3 hm)
  have p4 : uniformGrid.points.get? (ucellNode m 4) = some (upt (ucellNode m 4)) :=
    uniform_points_get _ (ucellNode_lt m 4 hm)
  have p5 : uniformGrid.points.get? (ucellNode m 5) = some (upt (ucellNode m 5)) :=
    uniform_points_get _ (ucellNode_lt m 5 hm)
  have p6 : uniformGrid.points.get? (ucellNode m 6) = some (upt (ucellNode m 6)) :=
    uniform_points_get _ (ucellNode_lt m 6 hm)
  have p7 : uniformGrid.points.get? (ucellNode m 7) = some (upt (ucellNode m 7)) :=
    uniform_points_get _ (ucellNode_lt m 7 hm)
  have hget : getPts uniformGrid.points uniformGrid.cells (8 * m) 8 =
      some [upt (ucellNode m 0), upt (ucellNode m 1), upt (ucellNode m 2),
            upt (ucellNode m 3), upt (ucellNode m 4), upt (ucellNode m 5),
            upt (ucellNode m 6), upt (ucellNode m 7)] := by
    simp only [getPts, e0, e1, e2, e3, e4, e5, e6, e7, p0, p1, p2, p3, p4, p5, p6, p7]
  have hb0 : ucellNode m 0 = m % 3 + 4 * (m / 3 % 3) + 16 * (m / 9) := by
    simp [ucellNode]
  have hb1 : ucellNode m 1 = (m % 3 + 1) + 4 * (m / 3 % 3) + 16 * (m / 9) := by
    simp [ucellNode]; omega
  have hb2 : ucellNode m 2 = (m % 3 + 1) + 4 * (m / 3 % 3 + 1) + 16 * (m / 9) := by
    simp [ucellNode]; omega
  have hb3 : ucellNode m 3 = m % 3 + 4 * (m / 3 % 3 + 1) + 16 * (m / 9) := by
    simp [ucellNode]; omega
  have hb4 : ucellNode m 4 = m % 3 + 4 * (m / 3 % 3) + 16 * (m / 9 + 1) := by
    simp [ucellNode]; omega
  have hb5 : ucellNode m 5 = (m % 3 + 1) + 4 * (m / 3 % 3) + 16 * (m / 9 + 1) := by
    simp [ucellNode]; omega
  have hb6 : ucellNode m 6 = (m % 3 + 1) + 4 * (m / 3 % 3 + 1) + 16 * (m / 9 + 1) := by
    simp [ucellNode]; omega
  have hb7 : ucellNode m 7 = m % 3 + 4 * (m / 3 % 3 + 1) + 16 * (m / 9 + 1) := by
    simp [ucellNode]; omega
  have hxc : (5 * ((m / 3 % 3 + 1 : ℕ) : ℝ) - 10) = (5 * ((m / 3 % 3 : ℕ) : ℝ) - 10) + 5 := by
    push_cast; ring
  have hyc : (5 * ((m % 3 + 1 : ℕ) : ℝ) - 10) = (5 * ((m % 3 : ℕ) : ℝ) - 10) + 5 := by
    push_cast; ring
  have hzc : (5 * ((m / 9 + 1 : ℕ) : ℝ) - 10) = (5 * ((m / 9 : ℕ) : ℝ) - 10) + 5 := by
    push_cast; ring
  have h0 : upt (ucellNode m 0) =
      ⟨5 * ((m / 3 % 3 : ℕ) : ℝ) - 10, 5 * ((m % 3 : ℕ) : ℝ) - 10,
       5 * ((m / 9 : ℕ) : ℝ) - 10⟩ := by
    rw [hb0]; exact upt_digits _ _ _ (by omega) (by omega)
  have h1 : upt (ucellNode m 1) =
      ⟨5 * ((m / 3 % 3 : ℕ) : ℝ) - 10, (5 * ((m % 3 : ℕ) : ℝ) - 10) + 5,
       5 * ((m / 9 : ℕ) : ℝ) - 10⟩ := by
    rw [hb1, upt_digits _ _ _ (by omega) (by omega), hyc]
  have h2 : upt (ucellNode m 2) =
      ⟨(5 * ((m / 3 % 3 : ℕ) : ℝ) - 10) + 5, (5 * ((m % 3 : ℕ) : ℝ) - 10) + 5,
       5 * ((m / 9 : ℕ) : ℝ) - 10⟩ := by
    rw [hb2, upt_digits _ _ _ (by omega) (by omega), hxc, hyc]
  have h3 : upt (ucellNode m 3) =
      ⟨(5 * ((m / 3 % 3 : ℕ) : ℝ) - 10) + 5, 5 * ((m % 3 : ℕ) : ℝ) - 10,
       5 * ((m / 9 : ℕ) : ℝ) - 10⟩ := by
    rw [hb3, upt_digits _ _ _ (by omega) (by omega), hxc]
  have h4 : upt (ucellNode m 4) =
      ⟨5 * ((m / 3 % 3 : ℕ) : ℝ) - 10, 5 * ((m % 3 : ℕ) : ℝ) - 10,
       (5 * ((m / 9 : ℕ) : ℝ) - 10) + 5⟩ := by
    rw [hb4, upt_digits _ _ _ (by omega) (by omega), hzc]
  have h5 : upt (ucellNode m 5) =
      ⟨5 * ((m / 3 % 3 : ℕ) : ℝ) - 10, (5 * ((m % 3 : ℕ) : ℝ) - 10) + 5,
       (5 * ((m / 9 : ℕ) : ℝ) - 10) + 5⟩ := by
    rw [hb5, upt_digits _ _ _ (by omega) (by omega), hyc, hzc]
  have h6 : upt (ucellNode m 6) =
      ⟨(5 * ((m / 3 % 3 : ℕ) : ℝ) - 10) + 5, (5 * ((m % 3 : ℕ) : ℝ) - 10) + 5,
       (5 * ((m / 9 : ℕ) : ℝ) - 10) + 5⟩ := by
    rw [hb6, upt_digits _ _ _ (by omega) (by omega), hxc, hyc, hzc]
  have h7 : upt (ucellNode m 7) =
      ⟨(5 * ((m / 3 % 3 : ℕ) : ℝ) - 10) + 5, 5 * ((m % 3 : ℕ) : ℝ) - 10,
       (5 * ((m / 9 : ℕ) : ℝ) - 10) + 5⟩ := by
    rw [hb7, upt_digits _ _ _ (by omega) (by omega), hxc, hzc]
  unfold cellQual
  rw [if_neg (by norm_num : ¬(12 : ℕ) = 0)]
  simp only [show nodeCountOf 12 = some 8 from rfl, hoff, hget]
  have htop : topoQual 12
      [upt (ucellNode m 0), upt (ucellNode m 1), upt (ucellNode m 2),
       upt (ucellNode m 3), upt (ucellNode m 4), upt (ucellNode m 5),
       upt (ucellNode m 6), upt (ucellNode m 7)] =
      hexQual (upt (ucellNode m 0)) (upt (ucellNode m 1)) (upt (ucellNode m 2))
        (upt (ucellNode m 3)) (upt (ucellNode m 4)) (upt (ucellNode m 5))
        (upt (ucellNode m 6)) (upt (ucellNode m 7)) := by
    simp [topoQual, List.getD]
  rw [htop, h0, h1, h2, h3, h4, h5, h6, h7]
  rw [hexQual_box]

/-- A run over n hexahedral cells that each evaluate to -1 yields n
copies of -1. -/
theorem cqGo_uniform : ∀ (n i : ℕ),
    (∀ m, m < n →
      cellQual uniformGrid.cells uniformGrid.offset uniformGrid.points (i + m) 12 =
        Except.ok (-1)) →
    cqGo uniformGrid.cells uniformGrid.offset uniformGrid.points i
        (List.replicate n 12) =
      Except.ok (List.replicate n (-1)) := by
  intro n
  induction n with
  | zero => intro i _; rfl
  | succ k ih =>
      intro i h
      have hhead : cellQual uniformGrid.cells uniformGrid.offset uniformGrid.points i 12 =
          Except.ok (-1) := by
        have := h 0 (by omega)
        simpa using this
      have htail := ih (i + 1) (fun m hm => by
        have := h (m + 1) (by omega)
        rwa [show i + (m + 1) = i + 1 + m by omega] at this)
      rw [List.replicate_succ]
      unfold cqGo
      rw [hhead, htail, List.replicate_succ]

/-- The kernel value of the docstring grid: -1 for each of the 27
cells, before any override or flip. -/
theorem uniform_kernel :
    cell_quality uniformGrid.cells uniformGrid.offset uniformGrid.celltypes
        uniformGrid.points =
      Except.ok (List.replicate 27 (-1)) := by
  have hct : uniformGrid.celltypes = List.replicate 27 12 := rfl
  rw [cell_quality_eq_cqGo, hct]
  exact cqGo_uniform 27 0 (fun m hm => by simpa using uniform_cellQual m hm)

/-- The null-cell override is the identity on a buffer with no null
cells. -/
theorem setNullQual_all_hex : ∀ (n : ℕ) (q : ℝ),
    setNullQual (List.replicate n 12) (List.replicate n q) = List.replicate n q := by
  intro n
  induction n with
  | zero => intro q; rfl
  | succ k ih =>
      intro q
      simp only [List.replicate_succ, setNullQual, List.zipWith_cons_cons]
      rw [show ((if (12 : ℕ) = 0 then (1 : ℝ) else q) = q) by norm_num]
      have := ih q
      unfold setNullQual at this
      rw [this]

/-- The returned scores of the docstring grid: +1 for each cell, the
negation of the kernel values, matching the documented output. -/
theorem uniform_quality :
    quality (GridInput.structured uniformGrid) = Except.ok (List.replicate 27 1) := by
  have hd : dispatchWith cell_quality cell_quality_float uniformGrid =
      (Precision.double, Except.ok (List.replicate 27 (-1))) := by
    unfold dispatchWith
    rw [if_pos (show uniformGrid.dtype = Dtype.float64 from rfl)]
    rw [uniform_kernel]
  unfold quality qualityRun qualityRunWith coerce
  simp only [hd]
  have hct : uniformGrid.celltypes = List.replicate 27 12 := rfl
  rw [hct, setNullQual_all_hex]
  simp only [Except.map, if_true, List.map_replicate]
  norm_num

/-- C3 (amended): on the uniform rectilinear docstring grid
(np.arange(-10, 10, 5) per axis, flattened with meshgrid xy indexing)
the kernel computes exactly -1 per cell before the sign flip, and the
wrapper returns exactly +1 per cell after it, matching the documented
output of the example. -/
theorem C3_uniform_grid_values :
    cell_quality uniformGrid.cells uniformGrid.offset uniformGrid.celltypes
        uniformGrid.points =
      Except.ok (List.replicate 27 (-1)) ∧
    quality (GridInput.structured uniformGrid) = Except.ok (List.replicate 27 1) :=
  ⟨uniform_kernel, uniform_quality⟩

/-- C3 counterexample: the claim asserts +1 per cell before the sign
flip and -1 per cell after; on the docstring grid the kernel value is
-1 per cell (not +1) and the returned, post-flip value is +1 per cell
(not -1), exactly the documented example output. -/
theorem C3_counterexample :
    cell_quality uniformGrid.cells uniformGrid.offset uniformGrid.celltypes
        uniformGrid.points ≠
      Except.ok (List.replicate 27 1) ∧
    quality (GridInput.structured uniformGrid) ≠ Except.ok (List.replicate 27 (-1)) := by
  constructor
  · intro h
    rw [uniform_kernel] at h
    have h2 : List.replicate 27 (-1 : ℝ) = List.replicate 27 1 := by
      simpa using h
    have hm : (-1 : ℝ) ∈ List.replicate 27 (1 : ℝ) := by
      rw [← h2]
      exact List.mem_replicate.mpr ⟨by norm_num, rfl⟩
    have := (List.mem_replicate.mp hm).2
    norm_num at this
  · intro h
    rw [uniform_quality] at h
    have h2 : List.replicate 27 (1 : ℝ) = List.replicate 27 (-1) := by
      simpa using h
    have hm : (1 : ℝ) ∈ List.replicate 27 (-1 : ℝ) := by
      rw [← h2]
      exact List.mem_replicate.mpr ⟨by norm_num, rfl⟩
    have := (List.mem_replicate.mp hm).2
    norm_num at this

/-- C2 witness: the negation relation applied to the concrete
one-null-cell grid. -/
theorem C2_witness :
    quality (GridInput.structured nullCellGrid) =
      Except.map (List.map (fun v => -v)) (quality (GridInput.unstructured nullCellGrid)) :=
  C2_structured_negation nullCellGrid

/-- C6 witness: the rejection theorem applied to the two real kernels. -/
theorem C6_witness :
    qualityRunWith cell_quality cell_quality_float GridInput.nonGrid =
      Except.error Err.typeError ∧
    ∀ out, qualityRunWith cell_quality cell_quality_float GridInput.nonGrid ≠
      Except.ok out :=
  C6_type_error_rejection cell_quality cell_quality_float

/-- C8 witness: determinism at a concrete input. -/
theorem C8_witness :
    quality (GridInput.unstructured nullCellGrid) =
      quality (GridInput.unstructured nullCellGrid) :=
  C8_idempotent (GridInput.unstructured nullCellGrid)

/-- C9 witness: the frame condition at a concrete input. -/
theorem C9_witness :
    (qualityFrame (GridInput.unstructured nullCellGrid)).2 =
      GridInput.unstructured nullCellGrid ∧
    (qualityFrame (GridInput.unstructured nullCellGrid)).1 =
      quality (GridInput.unstructured nullCellGrid) :=
  C9_frame (GridInput.unstructured nullCellGrid)

/-- C10 witness: a concrete structured grid is not rejected with the
type error. -/
theorem C10_witness :
    quality (GridInput.structured nullCellGrid) ≠ Except.error Err.typeError :=
  C10_structured_accepted nullCellGrid
